import Mathlib

/-!
Verification of the custom length-prefixed TCP protocol
(`src/server.py`, `src/client.py`).

Modelling conventions:
* A Python `str` is a list of Unicode code points (`PyStr := List Nat`);
  `payload[::-1]` is `List.reverse`.
* A byte sequence (`bytes` / `bytearray`) is a `List Nat` whose elements
  are intended to lie in `0..255`.
* The incoming side of a socket is a `Stream := List (List Nat)`: the list
  of byte chunks successive `recv` calls deliver.  An exhausted stream (or
  an explicit `[]` chunk) models the peer having closed the connection,
  whereupon `recv` returns an empty packet, exactly as `socket.recv` does.
* Python's `struct.pack('>BI', c, n)` / `struct.unpack('>BI', b)` are
  `packBI` / `unpackBI`; `str.encode('utf-8')` / `bytes.decode('utf-8')`
  are `utf8Encode` / `utf8Decode` (strict UTF-8, RFC 3629, which is what
  CPython's default codec implements; a failed decode raises, modelled by
  `none`).
-/

namespace CustomTCP

/-- Python `str`, as its sequence of Unicode code points. -/
abbrev PyStr := List Nat

/-- One socket's incoming data, as the chunks successive `recv` calls deliver. -/
abbrev Stream := List (List Nat)

/-- `HEADER_SIZE = 5` (server.py line 7, client.py line 6). -/
def HEADER_SIZE : Nat := 5

/-- `COMMAND_ECHO = 1` (server.py line 8). -/
def COMMAND_ECHO : Nat := 1

/-- `COMMAND_REVERSE = 2` (server.py line 9). -/
def COMMAND_REVERSE : Nat := 2

/-- `COMMAND_QUIT = 3` (server.py line 10). -/
def COMMAND_QUIT : Nat := 3

/-- A Unicode scalar value: what a Python `str` character must be for
`str.encode('utf-8')` to succeed (code point below `0x110000`, not a
surrogate). -/
def validScalar (c : Nat) : Bool :=
  c < 0x110000 && !(0xD800 ≤ c && c < 0xE000)

/-- UTF-8 encoding of one scalar value (the per-character core of Python's
`str.encode('utf-8')`). -/
def utf8EncodeChar (c : Nat) : List Nat :=
  if c < 0x80 then [c]
  else if c < 0x800 then [0xC0 + c / 0x40, 0x80 + c % 0x40]
  else if c < 0x10000 then
    [0xE0 + c / 0x1000, 0x80 + c / 0x40 % 0x40, 0x80 + c % 0x40]
  else
    [0xF0 + c / 0x40000, 0x80 + c / 0x1000 % 0x40, 0x80 + c / 0x40 % 0x40,
     0x80 + c % 0x40]

/-- Python `str.encode('utf-8')` over the whole string. -/
def utf8Encode : PyStr → List Nat
  | [] => []
  | c :: cs => utf8EncodeChar c ++ utf8Encode cs

/-- Decode the continuation byte of a 2-byte UTF-8 sequence with lead byte
`b0 ∈ C2..DF`. -/
def decodeCont1 (b0 : Nat) : List Nat → Option (Nat × List Nat)
  | b1 :: rest =>
    if 0x80 ≤ b1 ∧ b1 < 0xC0 then
      some ((b0 - 0xC0) * 0x40 + (b1 - 0x80), rest)
    else none
  | [] => none

/-- Decode the two continuation bytes of a 3-byte UTF-8 sequence with lead
byte `b0 ∈ E0..EF`; the first continuation range excludes overlong forms
(`E0 A0..BF`) and surrogates (`ED 80..9F`). -/
def decodeCont2 (b0 : Nat) : List Nat → Option (Nat × List Nat)
  | b1 :: b2 :: rest =>
    if (if b0 = 0xE0 then 0xA0 else 0x80) ≤ b1 ∧
       b1 < (if b0 = 0xED then 0xA0 else 0xC0) ∧
       0x80 ≤ b2 ∧ b2 < 0xC0 then
      some ((b0 - 0xE0) * 0x1000 + (b1 - 0x80) * 0x40 + (b2 - 0x80), rest)
    else none
  | _ => none

/-- Decode the three continuation bytes of a 4-byte UTF-8 sequence with
lead byte `b0 ∈ F0..F4`; the first continuation range excludes overlong
forms (`F0 90..BF`) and code points above `0x10FFFF` (`F4 80..8F`). -/
def decodeCont3 (b0 : Nat) : List Nat → Option (Nat × List Nat)
  | b1 :: b2 :: b3 :: rest =>
    if (if b0 = 0xF0 then 0x90 else 0x80) ≤ b1 ∧
       b1 < (if b0 = 0xF4 then 0x90 else 0xC0) ∧
       0x80 ≤ b2 ∧ b2 < 0xC0 ∧ 0x80 ≤ b3 ∧ b3 < 0xC0 then
      some ((b0 - 0xF0) * 0x40000 + (b1 - 0x80) * 0x1000 +
            (b2 - 0x80) * 0x40 + (b3 - 0x80), rest)
    else none
  | _ => none

/-- Decode one UTF-8 encoded scalar value whose lead byte is `b0` and
whose remaining bytes start `rest`; `none` on lead bytes `80..C1` and
`F5..FF`, bad continuation bytes, or truncation. -/
def decodeOne (b0 : Nat) (rest : List Nat) : Option (Nat × List Nat) :=
  if b0 < 0x80 then some (b0, rest)
  else if b0 < 0xC2 then none
  else if b0 < 0xE0 then decodeCont1 b0 rest
  else if b0 < 0xF0 then decodeCont2 b0 rest
  else if b0 < 0xF5 then decodeCont3 b0 rest
  else none

lemma decodeCont1_length {b0 : Nat} {l : List Nat} {c : Nat} {rest2 : List Nat}
    (h : decodeCont1 b0 l = some (c, rest2)) : rest2.length ≤ l.length := by
  unfold decodeCont1 at h
  split at h
  · split at h
    · simp only [Option.some.injEq, Prod.mk.injEq] at h
      obtain ⟨-, rfl⟩ := h
      simp only [List.length_cons]
      omega
    · cases h
  · cases h

lemma decodeCont2_length {b0 : Nat} {l : List Nat} {c : Nat} {rest2 : List Nat}
    (h : decodeCont2 b0 l = some (c, rest2)) : rest2.length ≤ l.length := by
  unfold decodeCont2 at h
  split at h
  · split_ifs at h
    all_goals first
      | (simp only [Option.some.injEq, Prod.mk.injEq] at h
         obtain ⟨-, rfl⟩ := h
         simp only [List.length_cons]
         omega)
      | simp at h
  · cases h

lemma decodeCont3_length {b0 : Nat} {l : List Nat} {c : Nat} {rest2 : List Nat}
    (h : decodeCont3 b0 l = some (c, rest2)) : rest2.length ≤ l.length := by
  unfold decodeCont3 at h
  split at h
  · split_ifs at h
    all_goals first
      | (simp only [Option.some.injEq, Prod.mk.injEq] at h
         obtain ⟨-, rfl⟩ := h
         simp only [List.length_cons]
         omega)
      | simp at h
  · cases h

lemma decodeOne_length {b0 : Nat} {l : List Nat} {c : Nat} {rest2 : List Nat}
    (h : decodeOne b0 l = some (c, rest2)) : rest2.length ≤ l.length := by
  unfold decodeOne at h
  split at h
  · cases h
    exact le_refl _
  · split at h
    · cases h
    · split at h
      · exact decodeCont1_length h
      · split at h
        · exact decodeCont2_length h
        · split at h
          · exact decodeCont3_length h
          · cases h

/-- Python `bytes.decode('utf-8')`: strict UTF-8 decoding.  Rejects
continuation-byte errors, overlong forms, surrogates (`ED A0..BF`),
code points above `0x10FFFF` (`F5..FF` leads, `F4 90..`), and truncated
sequences — exactly the inputs on which CPython raises
`UnicodeDecodeError`.  `none` models the raised exception. -/
def utf8Decode (l : List Nat) : Option PyStr :=
  match l with
  | [] => some []
  | b0 :: rest =>
    match h : decodeOne b0 rest with
    | none => none
    | some (c, rest2) => (utf8Decode rest2).map (fun t => c :: t)
termination_by l.length
decreasing_by
  have := decodeOne_length h
  simp only [List.length_cons]
  omega

/-- `struct.pack('>BI', c, n)` (server.py line 148, client.py line 108):
one command byte followed by the 4-byte big-endian payload length.
Faithful to Python for `c < 256` and `n < 2^32` (outside those ranges
`struct.pack` raises; the `% 256` here merely totalises). -/
def packBI (c n : Nat) : List Nat :=
  [c % 256, n / 0x1000000 % 256, n / 0x10000 % 256, n / 0x100 % 256, n % 256]

/-- `struct.unpack('>BI', b)` on a 5-byte buffer (server.py line 83,
client.py line 129).  Only ever applied to 5-byte buffers; other shapes
(on which Python raises) return a junk `(0, 0)`. -/
def unpackBI (l : List Nat) : Nat × Nat :=
  match l with
  | [b0, b1, b2, b3, b4] => (b0, ((b1 * 256 + b2) * 256 + b3) * 256 + b4)
  | _ => (0, 0)

/-- `_send_message` (server.py lines 139-150, client.py lines 98-110):
the bytes put on the wire for command `command` and string payload
`payload`. -/
def sendMessage (command : Nat) (payload : PyStr) : List Nat :=
  packBI command (utf8Encode payload).length ++ utf8Encode payload

/-- Model of `sock.recv(k)`: deliver the next pending chunk, at most `k`
bytes of it (any surplus stays buffered at the head of the stream).  An
exhausted stream, or an explicit empty chunk, yields the empty packet that
`socket.recv` returns once the peer has closed the connection. -/
def recv : Stream → Nat → List Nat × Stream
  | [], _ => ([], [])
  | c :: rest, k => (c.take k, if k < c.length then c.drop k :: rest else rest)

/-- The loop body of `_recv_all` (server.py lines 131-137, client.py lines
145-151): `data = acc`, repeatedly `recv(n - len(data))`, give up with
`None` on an empty packet, stop once `len(data) >= n`. -/
def recvAllAux (s : Stream) (acc : List Nat) (n : Nat) :
    Option (List Nat) × Stream :=
  if hlt : acc.length < n then
    if hp : (recv s (n - acc.length)).1 = [] then (none, (recv s (n - acc.length)).2)
    else recvAllAux (recv s (n - acc.length)).2 (acc ++ (recv s (n - acc.length)).1) n
  else (some acc, s)
termination_by n - acc.length
decreasing_by
  have hpos : 0 < (recv s (n - acc.length)).1.length := List.length_pos.mpr hp
  simp only [List.length_append]
  omega

/-- `_recv_all(sock, n)` (server.py lines 122-137, client.py lines
143-151), together with the stream state it leaves behind. -/
def recvAll (s : Stream) (n : Nat) : Option (List Nat) × Stream :=
  recvAllAux s [] n

/-- Total number of bytes still buffered in the stream. -/
def streamBytes : Stream → Nat
  | [] => 0
  | c :: rest => c.length + streamBytes rest

/-- The byte sequence the stream will deliver before signalling closure
(an empty chunk cuts it off, modelling the close point). -/
def streamContent : Stream → List Nat
  | [] => []
  | c :: rest => if c = [] then [] else c ++ streamContent rest



lemma recv_fst_length_le (s : Stream) (k : Nat) : (recv s k).1.length ≤ k := by
  cases s with
  | nil => simp [recv]
  | cons c rest => simp [recv]

lemma recv_bytes (s : Stream) (k : Nat) (h : (recv s k).1 ≠ []) :
    streamBytes (recv s k).2 + (recv s k).1.length = streamBytes s := by
  cases s with
  | nil => simp [recv] at h
  | cons c rest =>
    simp only [recv] at h ⊢
    split
    · simp only [streamBytes, List.length_take, List.length_drop]
      omega
    · rename_i hk
      have hcl : c.length ≤ k := by omega
      simp only [streamBytes, List.take_of_length_le hcl]
      omega

lemma recv_content (s : Stream) (k : Nat) (h : (recv s k).1 ≠ []) :
    streamContent s = (recv s k).1 ++ streamContent (recv s k).2 := by
  cases s with
  | nil => simp [recv] at h
  | cons c rest =>
    have hc : c ≠ [] := by
      intro hc
      simp [recv, hc] at h
    simp only [recv] at h ⊢
    split
    · rename_i hk
      have hd : c.drop k ≠ [] := by
        intro hd
        have := congrArg List.length hd
        simp at this
        omega
      rw [streamContent, if_neg hc, streamContent, if_neg hd, ← List.append_assoc,
        List.take_append_drop]
    · rename_i hk
      have hcl : c.length ≤ k := by omega
      rw [List.take_of_length_le hcl, streamContent, if_neg hc]



lemma recvAllAux_length : ∀ (s : Stream) (acc : List Nat) (n : Nat), acc.length ≤ n →
    ∀ d s', recvAllAux s acc n = (some d, s') → d.length = n := by
  intro s acc n
  induction s, acc, n using recvAllAux.induct with
  | case1 s acc n hlt hp =>
    intro hle d s' heq
    rw [recvAllAux, dif_pos hlt, dif_pos hp] at heq
    simp at heq
  | case2 s acc n hlt hp ih =>
    intro hle d s' heq
    rw [recvAllAux, dif_pos hlt, dif_neg hp] at heq
    have hpk : (recv s (n - acc.length)).1.length ≤ n - acc.length :=
      recv_fst_length_le s (n - acc.length)
    refine ih ?_ d s' heq
    simp only [List.length_append]
    omega
  | case3 s acc n hge =>
    intro hle d s' heq
    rw [recvAllAux, dif_neg hge] at heq
    simp only [Prod.mk.injEq, Option.some.injEq] at heq
    obtain ⟨rfl, rfl⟩ := heq
    omega

lemma recvAllAux_bytes : ∀ (s : Stream) (acc : List Nat) (n : Nat) (d : List Nat)
    (s' : Stream), recvAllAux s acc n = (some d, s') →
    streamBytes s' + d.length = streamBytes s + acc.length := by
  intro s acc n
  induction s, acc, n using recvAllAux.induct with
  | case1 s acc n hlt hp =>
    intro d s' heq
    rw [recvAllAux, dif_pos hlt, dif_pos hp] at heq
    simp at heq
  | case2 s acc n hlt hp ih =>
    intro d s' heq
    rw [recvAllAux, dif_pos hlt, dif_neg hp] at heq
    have hb := recv_bytes s (n - acc.length) hp
    have hi := ih d s' heq
    simp only [List.length_append] at hi
    omega
  | case3 s acc n hge =>
    intro d s' heq
    rw [recvAllAux, dif_neg hge] at heq
    simp only [Prod.mk.injEq, Option.some.injEq] at heq
    obtain ⟨rfl, rfl⟩ := heq
    omega

lemma recvAllAux_content : ∀ (s : Stream) (acc : List Nat) (n : Nat) (d : List Nat)
    (s' : Stream), recvAllAux s acc n = (some d, s') →
    acc ++ streamContent s = d ++ streamContent s' := by
  intro s acc n
  induction s, acc, n using recvAllAux.induct with
  | case1 s acc n hlt hp =>
    intro d s' heq
    rw [recvAllAux, dif_pos hlt, dif_pos hp] at heq
    simp at heq
  | case2 s acc n hlt hp ih =>
    intro d s' heq
    rw [recvAllAux, dif_pos hlt, dif_neg hp] at heq
    have hc := recv_content s (n - acc.length) hp
    rw [hc, ← List.append_assoc]
    exact ih d s' heq
  | case3 s acc n hge =>
    intro d s' heq
    rw [recvAllAux, dif_neg hge] at heq
    simp only [Prod.mk.injEq, Option.some.injEq] at heq
    obtain ⟨rfl, rfl⟩ := heq
    rfl

lemma recvAll_length (s : Stream) (n : Nat) (d : List Nat) (s' : Stream)
    (h : recvAll s n = (some d, s')) : d.length = n :=
  recvAllAux_length s [] n (by simp) d s' h

lemma recvAll_bytes (s : Stream) (n : Nat) (d : List Nat) (s' : Stream)
    (h : recvAll s n = (some d, s')) : streamBytes s' + d.length = streamBytes s := by
  have := recvAllAux_bytes s [] n d s' h
  simpa using this

lemma recvAll_content (s : Stream) (n : Nat) (d : List Nat) (s' : Stream)
    (h : recvAll s n = (some d, s')) : streamContent s = d ++ streamContent s' := by
  have := recvAllAux_content s [] n d s' h
  simpa using this




/-- Outcome of one iteration of the `_handle_client` loop (server.py lines
73-111), before the response (if any) is written. -/
inductive Step where
  | respond (resp : PyStr) (rest : Stream)
  | ignore (rest : Stream)
  | disconnected
  | quit
  | decodeError
deriving DecidableEq

/-- The command dispatch, server.py lines 99-108: ECHO echoes the payload,
REVERSE replies with `payload[::-1]`, QUIT breaks out of the loop, any
other command is ignored (`continue`). -/
def dispatch (command : Nat) (payload : PyStr) (rest : Stream) : Step :=
  if command = COMMAND_ECHO then .respond payload rest
  else if command = COMMAND_REVERSE then .respond payload.reverse rest
  else if command = COMMAND_QUIT then .quit
  else .ignore rest

/-- One iteration of the `_handle_client` loop (server.py lines 73-111):
read and unpack the 5-byte header, read the payload when `payload_len > 0`
and decode it as UTF-8 (a failed decode raises `UnicodeDecodeError`,
caught at the handler boundary: `.decodeError`), then dispatch.  The
`= []` checks mirror Python's falsiness tests `if not header_data` /
`if not payload_data`. -/
def handleOne (s : Stream) : Step :=
  match recvAll s HEADER_SIZE with
  | (none, _) => .disconnected
  | (some headerData, s1) =>
    if headerData = [] then .disconnected
    else
      match unpackBI headerData with
      | (command, payloadLen) =>
        if 0 < payloadLen then
          match recvAll s1 payloadLen with
          | (none, _) => .disconnected
          | (some payloadData, s2) =>
            if payloadData = [] then .disconnected
            else
              match utf8Decode payloadData with
              | none => .decodeError
              | some payload => dispatch command payload s2
        else dispatch command [] s1

lemma dispatch_respond_rest {command : Nat} {payload r : PyStr} {s rest : Stream}
    (h : dispatch command payload s = .respond r rest) : rest = s := by
  unfold dispatch at h
  split at h
  · cases h
    rfl
  · split at h
    · cases h
      rfl
    · split at h
      · cases h
      · cases h

lemma dispatch_ignore_rest {command : Nat} {payload : PyStr} {s rest : Stream}
    (h : dispatch command payload s = .ignore rest) : rest = s := by
  unfold dispatch at h
  split at h
  · cases h
  · split at h
    · cases h
    · split at h
      · cases h
      · cases h
        rfl

lemma handleOne_respond_bytes_lt {s : Stream} {r : PyStr} {rest : Stream}
    (h : handleOne s = .respond r rest) : streamBytes rest < streamBytes s := by
  unfold handleOne at h
  split at h
  · cases h
  · rename_i headerData s1 hh
    have hb1 := recvAll_bytes s HEADER_SIZE headerData s1 hh
    have hl1 := recvAll_length s HEADER_SIZE headerData s1 hh
    split at h
    · cases h
    · split at h
      rename_i command payloadLen hu
      split at h
      · split at h
        · cases h
        · rename_i payloadData s2 hp
          have hb2 := recvAll_bytes s1 _ payloadData s2 hp
          split at h
          · cases h
          · split at h
            · cases h
            · have := dispatch_respond_rest h
              subst this
              simp only [HEADER_SIZE] at hl1
              omega
      · have := dispatch_respond_rest h
        subst this
        simp only [HEADER_SIZE] at hl1
        omega

lemma handleOne_ignore_bytes_lt {s rest : Stream}
    (h : handleOne s = .ignore rest) : streamBytes rest < streamBytes s := by
  unfold handleOne at h
  split at h
  · cases h
  · rename_i headerData s1 hh
    have hb1 := recvAll_bytes s HEADER_SIZE headerData s1 hh
    have hl1 := recvAll_length s HEADER_SIZE headerData s1 hh
    split at h
    · cases h
    · split at h
      rename_i command payloadLen hu
      split at h
      · split at h
        · cases h
        · rename_i payloadData s2 hp
          have hb2 := recvAll_bytes s1 _ payloadData s2 hp
          split at h
          · cases h
          · split at h
            · cases h
            · have := dispatch_ignore_rest h
              subst this
              simp only [HEADER_SIZE] at hl1
              omega
      · have := dispatch_ignore_rest h
        subst this
        simp only [HEADER_SIZE] at hl1
        omega



/-- How the `_handle_client` loop ended: the peer vanished mid-frame
(`break` at server.py line 78 or 93), a QUIT frame arrived (`break` at
line 105), or an exception such as `UnicodeDecodeError` reached the
handler boundary (server.py lines 114-117).  In every case the `finally`
block (lines 118-120) then closes the connection. -/
inductive Exit where
  | disconnected
  | quit
  | error
deriving DecidableEq

/-- The whole `_handle_client` loop (server.py lines 65-120) run over an
incoming stream: the list of response frames written to the socket, in
order, and how the loop ended. -/
def handleClient (s : Stream) : List (List Nat) × Exit :=
  match h : handleOne s with
  | .respond r rest =>
    (sendMessage COMMAND_ECHO r :: (handleClient rest).1, (handleClient rest).2)
  | .ignore rest => handleClient rest
  | .disconnected => ([], .disconnected)
  | .quit => ([], .quit)
  | .decodeError => ([], .error)
termination_by streamBytes s
decreasing_by
  · exact handleOne_respond_bytes_lt (by assumption)
  · exact handleOne_ignore_bytes_lt (by assumption)

/-- Result of the client's `_receive_message` (client.py lines 115-141):
a decoded payload, `None` (the server closed the connection mid-frame), or
a `UnicodeDecodeError` escaping the `except socket.error` clause. -/
inductive RecvResult where
  | msg (payload : PyStr)
  | closed
  | exc
deriving DecidableEq

/-- `_receive_message` (client.py lines 115-141): read and unpack the
header, read `payload_len` payload bytes and decode them, returning `""`
for a zero-length payload and `None` (`.closed`) on a short read. -/
def receiveMessage (s : Stream) : RecvResult × Stream :=
  match recvAll s HEADER_SIZE with
  | (none, s1) => (.closed, s1)
  | (some headerData, s1) =>
    if headerData = [] then (.closed, s1)
    else
      match unpackBI headerData with
      | (_, payloadLen) =>
        if 0 < payloadLen then
          match recvAll s1 payloadLen with
          | (none, s2) => (.closed, s2)
          | (some payloadData, s2) =>
            if payloadData = [] then (.closed, s2)
            else
              match utf8Decode payloadData with
              | some t => (.msg t, s2)
              | none => (.exc, s2)
        else (.msg [], s1)

lemma handleClient_respond {s : Stream} {r : PyStr} {rest : Stream}
    (h : handleOne s = .respond r rest) :
    handleClient s = (sendMessage COMMAND_ECHO r :: (handleClient rest).1, (handleClient rest).2) := by
  conv_lhs => rw [handleClient.eq_def]
  split
  all_goals rename_i h2
  all_goals rw [h] at h2
  all_goals cases h2
  all_goals rfl

lemma handleClient_ignore {s rest : Stream}
    (h : handleOne s = .ignore rest) :
    handleClient s = handleClient rest := by
  conv_lhs => rw [handleClient.eq_def]
  split
  all_goals rename_i h2
  all_goals rw [h] at h2
  all_goals cases h2
  all_goals rfl

lemma handleClient_disconnected {s : Stream}
    (h : handleOne s = .disconnected) :
    handleClient s = ([], .disconnected) := by
  conv_lhs => rw [handleClient.eq_def]
  split
  all_goals rename_i h2
  all_goals rw [h] at h2
  all_goals cases h2
  all_goals rfl

lemma handleClient_quit {s : Stream}
    (h : handleOne s = .quit) :
    handleClient s = ([], .quit) := by
  conv_lhs => rw [handleClient.eq_def]
  split
  all_goals rename_i h2
  all_goals rw [h] at h2
  all_goals cases h2
  all_goals rfl

lemma handleClient_decodeError {s : Stream}
    (h : handleOne s = .decodeError) :
    handleClient s = ([], .error) := by
  conv_lhs => rw [handleClient.eq_def]
  split
  all_goals rename_i h2
  all_goals rw [h] at h2
  all_goals cases h2
  all_goals rfl





lemma utf8Decode_nil : utf8Decode [] = some [] := by
  rw [utf8Decode]

lemma utf8Decode_cons_some {b0 : Nat} {rest : List Nat} {c : Nat} {rest2 : List Nat}
    (h : decodeOne b0 rest = some (c, rest2)) :
    utf8Decode (b0 :: rest) = (utf8Decode rest2).map (fun t => c :: t) := by
  rw [utf8Decode]
  split
  all_goals rename_i h2
  all_goals rw [h] at h2
  all_goals cases h2
  all_goals rfl

lemma utf8Decode_cons_none {b0 : Nat} {rest : List Nat}
    (h : decodeOne b0 rest = none) : utf8Decode (b0 :: rest) = none := by
  rw [utf8Decode]
  split
  all_goals rename_i h2
  all_goals rw [h] at h2
  all_goals cases h2
  all_goals rfl

lemma decodeOne_encodeChar1 {c : Nat} (r : List Nat) (h1 : c < 0x80) :
    decodeOne c r = some (c, r) := by
  unfold decodeOne
  rw [if_pos h1]

lemma decodeOne_encodeChar2 {c : Nat} (r : List Nat) (h1 : ¬ c < 0x80) (h2 : c < 0x800) :
    decodeOne (0xC0 + c / 0x40) ((0x80 + c % 0x40) :: r) = some (c, r) := by
  unfold decodeOne
  rw [if_neg (by omega), if_neg (by omega), if_pos (by omega)]
  simp only [decodeCont1]
  rw [if_pos (by omega)]
  have hv : (0xC0 + c / 0x40 - 0xC0) * 0x40 + (0x80 + c % 0x40 - 0x80) = c := by omega
  rw [hv]

lemma decodeOne_encodeChar3 {c : Nat} (r : List Nat) (h2 : ¬ c < 0x800) (h3 : c < 0x10000)
    (hs : c < 0xD800 ∨ 0xE000 ≤ c) :
    decodeOne (0xE0 + c / 0x1000) ((0x80 + c / 0x40 % 0x40) :: (0x80 + c % 0x40) :: r) =
      some (c, r) := by
  unfold decodeOne
  rw [if_neg (by omega), if_neg (by omega), if_neg (by omega), if_pos (by omega)]
  simp only [decodeCont2]
  have hg : (if 0xE0 + c / 0x1000 = 0xE0 then 0xA0 else 0x80) ≤ 0x80 + c / 0x40 % 0x40 ∧
      0x80 + c / 0x40 % 0x40 < (if 0xE0 + c / 0x1000 = 0xED then 0xA0 else 0xC0) ∧
      0x80 ≤ 0x80 + c % 0x40 ∧ 0x80 + c % 0x40 < 0xC0 := by
    refine ⟨?_, ?_, by omega, by omega⟩
    · split
      · rename_i he
        omega
      · omega
    · split
      · rename_i he
        omega
      · omega
  rw [if_pos hg]
  have hv : (0xE0 + c / 0x1000 - 0xE0) * 0x1000 + (0x80 + c / 0x40 % 0x40 - 0x80) * 0x40 +
      (0x80 + c % 0x40 - 0x80) = c := by omega
  rw [hv]

lemma decodeOne_encodeChar4 {c : Nat} (r : List Nat) (h3 : ¬ c < 0x10000) (h4 : c < 0x110000) :
    decodeOne (0xF0 + c / 0x40000)
      ((0x80 + c / 0x1000 % 0x40) :: (0x80 + c / 0x40 % 0x40) :: (0x80 + c % 0x40) :: r) =
      some (c, r) := by
  unfold decodeOne
  rw [if_neg (by omega), if_neg (by omega), if_neg (by omega), if_neg (by omega),
    if_pos (by omega)]
  simp only [decodeCont3]
  have hg : (if 0xF0 + c / 0x40000 = 0xF0 then 0x90 else 0x80) ≤ 0x80 + c / 0x1000 % 0x40 ∧
      0x80 + c / 0x1000 % 0x40 < (if 0xF0 + c / 0x40000 = 0xF4 then 0x90 else 0xC0) ∧
      0x80 ≤ 0x80 + c / 0x40 % 0x40 ∧ 0x80 + c / 0x40 % 0x40 < 0xC0 ∧
      0x80 ≤ 0x80 + c % 0x40 ∧ 0x80 + c % 0x40 < 0xC0 := by
    refine ⟨?_, ?_, by omega, by omega, by omega, by omega⟩
    · split
      · rename_i he
        omega
      · omega
    · split
      · rename_i he
        omega
      · omega
  rw [if_pos hg]
  have hv : (0xF0 + c / 0x40000 - 0xF0) * 0x40000 + (0x80 + c / 0x1000 % 0x40 - 0x80) * 0x1000 +
      (0x80 + c / 0x40 % 0x40 - 0x80) * 0x40 + (0x80 + c % 0x40 - 0x80) = c := by omega
  rw [hv]

lemma utf8Decode_encodeChar (c : Nat) (r : List Nat) (h : validScalar c = true) :
    utf8Decode (utf8EncodeChar c ++ r) = (utf8Decode r).map (fun t => c :: t) := by
  have hb : c < 0x110000 ∧ (c < 0xD800 ∨ 0xE000 ≤ c) := by
    simp [validScalar] at h
    omega
  by_cases h1 : c < 0x80
  · rw [utf8EncodeChar, if_pos h1]
    exact utf8Decode_cons_some (decodeOne_encodeChar1 r h1)
  · by_cases h2 : c < 0x800
    · rw [utf8EncodeChar, if_neg h1, if_pos h2]
      exact utf8Decode_cons_some (decodeOne_encodeChar2 r h1 h2)
    · by_cases h3 : c < 0x10000
      · rw [utf8EncodeChar, if_neg h1, if_neg h2, if_pos h3]
        exact utf8Decode_cons_some (decodeOne_encodeChar3 r h2 h3 hb.2)
      · rw [utf8EncodeChar, if_neg h1, if_neg h2, if_neg h3]
        exact utf8Decode_cons_some (decodeOne_encodeChar4 r h3 hb.1)

lemma utf8Decode_utf8Encode (s : PyStr) (h : s.all validScalar = true) :
    utf8Decode (utf8Encode s) = some s := by
  induction s with
  | nil => exact utf8Decode_nil
  | cons c cs ih =>
    simp only [List.all_cons, Bool.and_eq_true] at h
    rw [utf8Encode, utf8Decode_encodeChar c _ h.1, ih h.2]
    rfl




lemma packBI_length (c n : Nat) : (packBI c n).length = HEADER_SIZE := by
  rfl

lemma unpackBI_packBI {c n : Nat} (hc : c < 256) (hn : n < 2 ^ 32) :
    unpackBI (packBI c n) = (c, n) := by
  simp only [packBI, unpackBI, Prod.mk.injEq]
  exact ⟨by omega, by omega⟩

lemma utf8Encode_append (s t : PyStr) :
    utf8Encode (s ++ t) = utf8Encode s ++ utf8Encode t := by
  induction s with
  | nil => rfl
  | cons c cs ih =>
    simp [utf8Encode, ih]

lemma utf8Encode_reverse_length (s : PyStr) :
    (utf8Encode s.reverse).length = (utf8Encode s).length := by
  induction s with
  | nil => rfl
  | cons c cs ih =>
    rw [List.reverse_cons, utf8Encode_append, utf8Encode]
    simp only [List.length_append, utf8Encode, List.length_nil, ih]
    omega

lemma sendMessage_ne_nil (c : Nat) (p : PyStr) : sendMessage c p ≠ [] := by
  simp [sendMessage, packBI]

/-- `[l]` if `l` is nonempty, `[]` otherwise: the canonical stream holding
exactly the bytes `l` before closure. -/
def oneChunk (l : List Nat) : Stream :=
  if l = [] then [] else [l]

lemma recvAll_single {l : List Nat} {n : Nat} (h1 : 1 ≤ n) (h2 : n ≤ l.length) :
    recvAll [l] n = (some (l.take n), if n < l.length then [l.drop n] else []) := by
  rw [recvAll, recvAllAux, dif_pos (by simpa using h1)]
  have hl : l ≠ [] := by
    intro he
    subst he
    simp at h2
    omega
  have hrecv : recv [l] (n - List.length ([] : List Nat)) =
      (l.take n, if n < l.length then [l.drop n] else []) := by
    simp only [recv, List.length_nil, Nat.sub_zero]
  have htk : l.take n ≠ [] := by
    have hlt : (l.take n).length = n := by
      rw [List.length_take]
      omega
    intro he
    rw [he] at hlt
    simp at hlt
    omega
  rw [dif_neg (by rw [hrecv]; exact htk)]
  rw [hrecv]
  rw [recvAllAux]
  rw [dif_neg (by simp; omega)]
  simp only [List.nil_append]

lemma recvAll_single_short {l : List Nat} {n : Nat} (h : l.length < n) :
    recvAll [l] n = (none, []) := by
  by_cases hl : l = []
  · subst hl
    rw [recvAll, recvAllAux, dif_pos (by simpa using h)]
    have hrecv : recv [([] : List Nat)] (n - List.length ([] : List Nat)) = ([], []) := by
      simp [recv]
    rw [dif_pos (by rw [hrecv])]
    rw [hrecv]
  · rw [recvAll, recvAllAux, dif_pos (by simp; omega)]
    have hrecv : recv [l] (n - List.length ([] : List Nat)) = (l, []) := by
      simp only [recv, List.length_nil, Nat.sub_zero]
      rw [if_neg (by omega), List.take_of_length_le (by omega)]
    rw [dif_neg (by rw [hrecv]; exact hl)]
    rw [hrecv]
    rw [recvAllAux, dif_pos (by simpa using h)]
    have hrecv2 : recv [] (n - List.length (([] : List Nat) ++ l)) = ([], []) := by
      simp [recv]
    rw [dif_pos (by rw [hrecv2])]
    rw [hrecv2]

lemma recvAll_nil {n : Nat} (h : 1 ≤ n) : recvAll [] n = (none, []) := by
  rw [recvAll, recvAllAux, dif_pos (by simpa using h)]
  have hrecv : recv [] (n - List.length ([] : List Nat)) = ([], []) := by
    simp [recv]
  rw [dif_pos (by rw [hrecv])]
  rw [hrecv]




lemma recvAll_exact {pre rest : List Nat} {n : Nat} (h1 : 1 ≤ n) (h2 : pre.length = n) :
    recvAll [pre ++ rest] n = (some pre, oneChunk rest) := by
  subst h2
  rw [recvAll_single h1 (by simp)]
  rw [List.take_left, List.drop_left]
  simp only [List.length_append, oneChunk]
  by_cases hr : rest = []
  · subst hr
    rw [if_neg (by simp), if_pos rfl]
  · rw [if_pos (by
      have : 0 < rest.length := List.length_pos.mpr hr
      omega), if_neg hr]

lemma handleOne_frame {c : Nat} {p m : List Nat} {t : PyStr}
    (hc : c < 256) (hlen : p.length < 2 ^ 32) (hdec : utf8Decode p = some t) :
    handleOne [packBI c p.length ++ p ++ m] = dispatch c t (oneChunk m) := by
  unfold handleOne
  rw [List.append_assoc]
  rw [recvAll_exact (by decide) (packBI_length c p.length)]
  simp only []
  rw [if_neg (by simp [packBI]), unpackBI_packBI hc hlen]
  simp only []
  by_cases hp : p = []
  · subst hp
    rw [if_neg (by simp)]
    have ht : t = [] := by
      rw [utf8Decode_nil] at hdec
      exact (Option.some.injEq _ _).mp hdec.symm
    rw [ht]
    simp only [List.nil_append]
  · have hplen : 0 < p.length := List.length_pos.mpr hp
    rw [if_pos hplen]
    have hchunk : oneChunk (p ++ m) = [p ++ m] := by
      rw [oneChunk, if_neg (by simp [hp])]
    rw [hchunk, recvAll_exact hplen rfl]
    simp only []
    rw [if_neg hp, hdec]

lemma handleOne_frame_badPayload {c : Nat} {p m : List Nat}
    (hc : c < 256) (hlen : p.length < 2 ^ 32) (hdec : utf8Decode p = none) :
    handleOne [packBI c p.length ++ p ++ m] = .decodeError := by
  have hp : p ≠ [] := by
    intro he
    rw [he, utf8Decode_nil] at hdec
    cases hdec
  unfold handleOne
  rw [List.append_assoc]
  rw [recvAll_exact (by decide) (packBI_length c p.length)]
  simp only []
  rw [if_neg (by simp [packBI]), unpackBI_packBI hc hlen]
  simp only []
  have hplen : 0 < p.length := List.length_pos.mpr hp
  rw [if_pos hplen]
  have hchunk : oneChunk (p ++ m) = [p ++ m] := by
    rw [oneChunk, if_neg (by simp [hp])]
  rw [hchunk, recvAll_exact hplen rfl]
  simp only []
  rw [if_neg hp, hdec]




lemma handleOne_sendMessage {c : Nat} {s : PyStr} {m : List Nat}
    (hc : c < 256) (hlen : (utf8Encode s).length < 2 ^ 32)
    (hs : s.all validScalar = true) :
    handleOne [sendMessage c s ++ m] = dispatch c s (oneChunk m) := by
  rw [sendMessage]
  exact handleOne_frame hc hlen (utf8Decode_utf8Encode s hs)

lemma handleOne_nil : handleOne [] = .disconnected := by
  unfold handleOne
  rw [recvAll_nil (by decide)]

lemma handleClient_nil : handleClient [] = ([], .disconnected) :=
  handleClient_disconnected handleOne_nil

lemma all_validScalar_reverse {s : PyStr} (h : s.all validScalar = true) :
    s.reverse.all validScalar = true := by
  rw [List.all_reverse]
  exact h

lemma handleOne_echo {s : PyStr} {m : List Nat}
    (hlen : (utf8Encode s).length < 2 ^ 32) (hs : s.all validScalar = true) :
    handleOne [sendMessage COMMAND_ECHO s ++ m] = .respond s (oneChunk m) := by
  rw [handleOne_sendMessage (by decide) hlen hs, dispatch, if_pos rfl]

lemma handleOne_reverse {s : PyStr} {m : List Nat}
    (hlen : (utf8Encode s).length < 2 ^ 32) (hs : s.all validScalar = true) :
    handleOne [sendMessage COMMAND_REVERSE s ++ m] = .respond s.reverse (oneChunk m) := by
  rw [handleOne_sendMessage (by decide) hlen hs, dispatch, if_neg (by decide), if_pos rfl]

lemma handleClient_single_echo {s : PyStr}
    (hlen : (utf8Encode s).length < 2 ^ 32) (hs : s.all validScalar = true) :
    handleClient [sendMessage COMMAND_ECHO s] = ([sendMessage COMMAND_ECHO s], .disconnected) := by
  have h1 : handleOne [sendMessage COMMAND_ECHO s] = .respond s [] := by
    have := handleOne_echo (m := []) hlen hs
    rw [List.append_nil] at this
    rw [this, oneChunk, if_pos rfl]
  rw [handleClient_respond h1, handleClient_nil]

lemma handleClient_echo_empty :
    handleClient [[COMMAND_ECHO, 0, 0, 0, 0]] =
      ([[COMMAND_ECHO, 0, 0, 0, 0]], .disconnected) := by
  have h := handleClient_single_echo (s := []) (by decide) (by decide)
  exact h




/-- C1: for every command code `c ∈ {1,2,3}` and every payload (of any byte
length `n` representable in the header's 32-bit length field), unpacking
the 5-byte header of the frame built by `_send_message` yields exactly
`(c, n)`, and the bytes after the header are exactly the payload bytes. -/
theorem c1_header_roundtrip (c : Nat) (p : PyStr)
    (hc : c = COMMAND_ECHO ∨ c = COMMAND_REVERSE ∨ c = COMMAND_QUIT)
    (hlen : (utf8Encode p).length < 2 ^ 32) :
    unpackBI ((sendMessage c p).take HEADER_SIZE) = (c, (utf8Encode p).length) ∧
    (sendMessage c p).drop HEADER_SIZE = utf8Encode p := by
  have hc' : c < 256 := by
    rcases hc with rfl | rfl | rfl
    · decide
    · decide
    · decide
  constructor
  · rw [sendMessage, show HEADER_SIZE = (packBI c (utf8Encode p).length).length from
      (packBI_length c (utf8Encode p).length).symm, List.take_left]
    exact unpackBI_packBI hc' hlen
  · rw [sendMessage, show HEADER_SIZE = (packBI c (utf8Encode p).length).length from
      (packBI_length c (utf8Encode p).length).symm, List.drop_left]

/-- C2: a REVERSE request with payload `s` is answered with payload
`s` reversed character-wise (code-point-wise, because the server reverses
the decoded `str`, keeping multi-byte UTF-8 sequences intact), and a
second REVERSE applied to that response restores `s`: on a stream holding
a REVERSE frame for `s` followed by a REVERSE frame for `reverse s`, the
server responds first with `reverse s` and then with `s` itself. -/
theorem c2_reverse_correct (s : PyStr) (hs : s.all validScalar = true)
    (hlen : (utf8Encode s).length < 2 ^ 32) :
    handleClient [sendMessage COMMAND_REVERSE s ++ sendMessage COMMAND_REVERSE s.reverse] =
      ([sendMessage COMMAND_ECHO s.reverse, sendMessage COMMAND_ECHO s],
        Exit.disconnected) := by
  have hsr : s.reverse.all validScalar = true := all_validScalar_reverse hs
  have hlenr : (utf8Encode s.reverse).length < 2 ^ 32 := by
    rw [utf8Encode_reverse_length]
    exact hlen
  have h1 : handleOne [sendMessage COMMAND_REVERSE s ++ sendMessage COMMAND_REVERSE s.reverse] =
      .respond s.reverse [sendMessage COMMAND_REVERSE s.reverse] := by
    rw [handleOne_reverse hlen hs, oneChunk, if_neg (sendMessage_ne_nil _ _)]
  have h2 : handleOne [sendMessage COMMAND_REVERSE s.reverse] = .respond s [] := by
    have h := handleOne_reverse (m := []) hlenr hsr
    rw [List.append_nil] at h
    rw [h, List.reverse_reverse, oneChunk, if_pos rfl]
  rw [handleClient_respond h1, handleClient_respond h2, handleClient_nil]

/-- C3: an ECHO request with payload `s` is answered with payload `s`
unchanged. -/
theorem c3_echo_identity (s : PyStr) (hs : s.all validScalar = true)
    (hlen : (utf8Encode s).length < 2 ^ 32) :
    handleClient [sendMessage COMMAND_ECHO s] =
      ([sendMessage COMMAND_ECHO s], Exit.disconnected) :=
  handleClient_single_echo hlen hs



/-- C4: every response frame the server ever writes carries command code
ECHO (1) in its first header byte — including responses to REVERSE
requests — for every incoming stream whatsoever. -/
theorem c4_response_always_echo :
    ∀ (s : Stream), ∀ m ∈ (handleClient s).1, m.head? = some COMMAND_ECHO := by
  intro s
  generalize hb : streamBytes s = n
  induction n using Nat.strong_induction_on generalizing s with
  | _ n ih =>
    intro m hm
    cases hstep : handleOne s with
    | respond r rest =>
      rw [handleClient_respond hstep] at hm
      simp only [List.mem_cons] at hm
      rcases hm with rfl | hm
      · rfl
      · exact ih (streamBytes rest) (hb ▸ handleOne_respond_bytes_lt hstep) rest rfl m hm
    | ignore rest =>
      rw [handleClient_ignore hstep] at hm
      exact ih (streamBytes rest) (hb ▸ handleOne_ignore_bytes_lt hstep) rest rfl m hm
    | disconnected =>
      rw [handleClient_disconnected hstep] at hm
      simp at hm
    | quit =>
      rw [handleClient_quit hstep] at hm
      simp at hm
    | decodeError =>
      rw [handleClient_decodeError hstep] at hm
      simp at hm



/-- C5 counterexample: the claim says a frame whose payload is invalid
UTF-8 must not terminate the connection.  On the concrete stream holding
an ECHO frame with the invalid payload byte `0xFF` followed by a valid
empty-payload ECHO frame, the handler raises `UnicodeDecodeError`
(server.py line 94), caught at the handler boundary (line 116), and the
connection is closed (lines 118-120): the output is empty — the
subsequent valid frame is never answered — and the exit is the exception
path, so the connection was terminated. -/
theorem c5_counterexample :
    handleClient [[COMMAND_ECHO, 0, 0, 0, 1, 0xFF] ++ [COMMAND_ECHO, 0, 0, 0, 0]] =
      ([], Exit.error) := by
  have hdec : utf8Decode [0xFF] = none := utf8Decode_cons_none (by decide)
  have h1 : handleOne [[COMMAND_ECHO, 0, 0, 0, 1, 0xFF] ++ [COMMAND_ECHO, 0, 0, 0, 0]] =
      .decodeError := by
    exact handleOne_frame_badPayload (c := COMMAND_ECHO) (p := [0xFF])
      (m := [COMMAND_ECHO, 0, 0, 0, 0]) (by decide) (by decide) hdec
  rw [handleClient_decodeError h1]

/-- C5 amended: for every received frame whose payload bytes are not valid
UTF-8, the `UnicodeDecodeError` is caught at the handler boundary — the
server process does not crash — but the handler loop stops with no
response sent and that connection is terminated (closed in the `finally`
block); any bytes following the malformed frame are never processed. -/
theorem c5_amended_decode_error_closes (c : Nat) (p more : List Nat)
    (hc : c < 256) (hlen : p.length < 2 ^ 32) (hdec : utf8Decode p = none) :
    handleClient [packBI c p.length ++ p ++ more] = ([], Exit.error) := by
  rw [handleClient_decodeError (handleOne_frame_badPayload hc hlen hdec)]

/-- C6 counterexample: the claim says an unknown-command frame with *any*
payload leaves the connection able to process a subsequent valid ECHO
request.  On the concrete stream holding a command-99 frame whose payload
is the invalid UTF-8 byte `0xFF`, followed by a valid empty-payload ECHO
frame, the server decodes the payload *before* dispatching (server.py
line 94), so the handler dies with `UnicodeDecodeError`: no response is
produced for the subsequent valid ECHO frame and the connection is
terminated. -/
theorem c6_counterexample :
    handleClient [[99, 0, 0, 0, 1, 0xFF] ++ [COMMAND_ECHO, 0, 0, 0, 0]] =
      ([], Exit.error) := by
  have hdec : utf8Decode [0xFF] = none := utf8Decode_cons_none (by decide)
  have h1 : handleOne [[99, 0, 0, 0, 1, 0xFF] ++ [COMMAND_ECHO, 0, 0, 0, 0]] =
      .decodeError := by
    exact handleOne_frame_badPayload (c := 99) (p := [0xFF])
      (m := [COMMAND_ECHO, 0, 0, 0, 0]) (by decide) (by decide) hdec
  rw [handleClient_decodeError h1]

/-- C6 amended: for every frame whose command code is outside `{1,2,3}`
and whose payload decodes as UTF-8 (in particular any empty payload), the
server sends no response frame, the connection stays open, and a
subsequent valid ECHO request on the same connection is processed
correctly (it receives exactly its echo response). -/
theorem c6_amended_unknown_inert (c : Nat) (p : List Nat) (t s : PyStr)
    (hc : c < 256) (hc1 : c ≠ COMMAND_ECHO) (hc2 : c ≠ COMMAND_REVERSE)
    (hc3 : c ≠ COMMAND_QUIT) (hplen : p.length < 2 ^ 32)
    (hp : utf8Decode p = some t)
    (hs : s.all validScalar = true) (hslen : (utf8Encode s).length < 2 ^ 32) :
    handleClient [packBI c p.length ++ p ++ sendMessage COMMAND_ECHO s] =
      ([sendMessage COMMAND_ECHO s], Exit.disconnected) := by
  have h1 : handleOne [packBI c p.length ++ p ++ sendMessage COMMAND_ECHO s] =
      .ignore [sendMessage COMMAND_ECHO s] := by
    rw [handleOne_frame hc hplen hp, dispatch, if_neg hc1, if_neg hc2, if_neg hc3,
      oneChunk, if_neg (sendMessage_ne_nil _ _)]
  rw [handleClient_ignore h1]
  exact handleClient_single_echo hslen hs



lemma handleOne_quit_cases {s0 : Stream} {hd : List Nat} {s1 : Stream}
    (hrecv : recvAll s0 HEADER_SIZE = (some hd, s1))
    (hcmd : (unpackBI hd).1 = COMMAND_QUIT) :
    handleOne s0 = .quit ∨ handleOne s0 = .disconnected ∨ handleOne s0 = .decodeError := by
  have hne : hd ≠ [] := by
    have hl := recvAll_length _ _ _ _ hrecv
    intro he
    rw [he] at hl
    simp [HEADER_SIZE] at hl
  unfold handleOne
  rw [hrecv]
  simp only []
  rw [if_neg hne]
  split
  · split
    · right
      left
      rfl
    · split
      · right
        left
        rfl
      · split
        · right
          right
          rfl
        · left
          rw [dispatch, hcmd, if_neg (by decide), if_neg (by decide), if_pos rfl]
  · left
    rw [dispatch, hcmd, if_neg (by decide), if_neg (by decide), if_pos rfl]

/-- C7: once a frame whose header carries command code QUIT (3) is read on
a connection, the server never sends another frame on it: whatever the
QUIT frame's payload and whatever bytes follow it, the handler's remaining
output is empty — the loop breaks (or dies on a malformed QUIT payload)
and the connection is closed by the handler's `finally` block. -/
theorem c7_quit_silent (s0 : Stream) (hd : List Nat) (s1 : Stream)
    (hrecv : recvAll s0 HEADER_SIZE = (some hd, s1))
    (hcmd : (unpackBI hd).1 = COMMAND_QUIT) :
    (handleClient s0).1 = [] := by
  rcases handleOne_quit_cases hrecv hcmd with h | h | h
  · rw [handleClient_quit h]
  · rw [handleClient_disconnected h]
  · rw [handleClient_decodeError h]

/-- C8: a frame with `payload_length = 0` is valid: the server answers an
empty-payload ECHO request with an ECHO response with empty payload, and
the client codec decodes such a response to the empty string
(`RecvResult.msg []`), an outcome distinct from the absent result
(`RecvResult.closed`, i.e. Python `None`) that signals disconnection. -/
theorem c8_zero_length_valid :
    handleClient [[COMMAND_ECHO, 0, 0, 0, 0]] =
      ([sendMessage COMMAND_ECHO []], Exit.disconnected) ∧
    (receiveMessage [[COMMAND_ECHO, 0, 0, 0, 0]]).1 = RecvResult.msg [] ∧
    RecvResult.msg [] ≠ RecvResult.closed := by
  refine ⟨handleClient_echo_empty, ?_, by decide⟩
  have hrecv : recvAll [[COMMAND_ECHO, 0, 0, 0, 0]] HEADER_SIZE =
      (some [COMMAND_ECHO, 0, 0, 0, 0], []) := by
    have h := recvAll_single (l := [COMMAND_ECHO, 0, 0, 0, 0]) (n := HEADER_SIZE)
      (by decide) (by decide)
    simpa using h
  unfold receiveMessage
  rw [hrecv]
  simp only []
  rw [if_neg (by decide)]
  rfl

/-- C9: `_recv_all(sock, n)` for `n ≥ 1` returns either `None` (the peer
closed the stream before `n` bytes arrived) or a buffer of exactly `n`
bytes — never a shorter non-empty buffer — over every incoming byte
stream, however the underlying `recv` chunks its deliveries. -/
theorem c9_recvAll_all_or_nothing (s : Stream) (n : Nat) (h : 1 ≤ n) :
    (recvAll s n).1 = none ∨ ∃ d, (recvAll s n).1 = some d ∧ d.length = n := by
  rcases heq : recvAll s n with ⟨o, s'⟩
  cases o with
  | none =>
    left
    rfl
  | some d =>
    right
    exact ⟨d, rfl, recvAll_length s n d s' heq⟩

/-- C10: when the server discards an unknown-command frame, it has already
consumed the 5 header bytes and exactly `payload_length` payload bytes
from the stream, so the remaining stream content starts at the next frame
boundary and the loop simply continues there: framing never
desynchronises. -/
theorem c10_unknown_consumes_whole_frame (s : Stream) (rest : Stream)
    (h : handleOne s = .ignore rest) :
    ∃ hd p, streamContent s = hd ++ p ++ streamContent rest ∧
      hd.length = HEADER_SIZE ∧ p.length = (unpackBI hd).2 ∧
      handleClient s = handleClient rest := by
  have hcont := handleClient_ignore h
  unfold handleOne at h
  split at h
  · cases h
  · rename_i headerData s1 hh
    have hc1 := recvAll_content s HEADER_SIZE headerData s1 hh
    have hl1 := recvAll_length s HEADER_SIZE headerData s1 hh
    split at h
    · cases h
    · split at h
      rename_i command payloadLen hu
      split at h
      · split at h
        · cases h
        · rename_i payloadData s2 hp
          have hc2 := recvAll_content s1 _ payloadData s2 hp
          have hl2 := recvAll_length s1 _ payloadData s2 hp
          split at h
          · cases h
          · split at h
            · cases h
            · have hrest := dispatch_ignore_rest h
              subst hrest
              refine ⟨headerData, payloadData, ?_, hl1, ?_, hcont⟩
              · rw [hc1, hc2, List.append_assoc]
              · rw [hu]
                exact hl2
      · have hrest := dispatch_ignore_rest h
        subst hrest
        rename_i hzero
        refine ⟨headerData, [], ?_, hl1, ?_, hcont⟩
        · simpa using hc1
        · rw [hu]
          simp
          omega



theorem c1_header_roundtrip_witness :
    (COMMAND_REVERSE = COMMAND_ECHO ∨ COMMAND_REVERSE = COMMAND_REVERSE ∨
      COMMAND_REVERSE = COMMAND_QUIT) ∧
    (utf8Encode [104, 105]).length < 2 ^ 32 ∧
    (unpackBI ((sendMessage COMMAND_REVERSE [104, 105]).take HEADER_SIZE) =
        (COMMAND_REVERSE, (utf8Encode [104, 105]).length) ∧
      (sendMessage COMMAND_REVERSE [104, 105]).drop HEADER_SIZE =
        utf8Encode [104, 105]) :=
  ⟨Or.inr (Or.inl rfl), by decide,
    c1_header_roundtrip COMMAND_REVERSE [104, 105] (Or.inr (Or.inl rfl)) (by decide)⟩

theorem c2_reverse_correct_witness :
    ([97, 8364] : PyStr).all validScalar = true ∧
    (utf8Encode [97, 8364]).length < 2 ^ 32 ∧
    handleClient [sendMessage COMMAND_REVERSE [97, 8364] ++
        sendMessage COMMAND_REVERSE ([97, 8364] : PyStr).reverse] =
      ([sendMessage COMMAND_ECHO ([97, 8364] : PyStr).reverse,
        sendMessage COMMAND_ECHO [97, 8364]], Exit.disconnected) :=
  ⟨by decide, by decide, c2_reverse_correct [97, 8364] (by decide) (by decide)⟩

theorem c3_echo_identity_witness :
    ([104, 105] : PyStr).all validScalar = true ∧
    (utf8Encode [104, 105]).length < 2 ^ 32 ∧
    handleClient [sendMessage COMMAND_ECHO [104, 105]] =
      ([sendMessage COMMAND_ECHO [104, 105]], Exit.disconnected) :=
  ⟨by decide, by decide, c3_echo_identity [104, 105] (by decide) (by decide)⟩

theorem c4_response_always_echo_witness :
    [COMMAND_ECHO, 0, 0, 0, 0] ∈ (handleClient [[COMMAND_ECHO, 0, 0, 0, 0]]).1 ∧
    ([COMMAND_ECHO, 0, 0, 0, 0] : List Nat).head? = some COMMAND_ECHO := by
  have hm : [COMMAND_ECHO, 0, 0, 0, 0] ∈ (handleClient [[COMMAND_ECHO, 0, 0, 0, 0]]).1 := by
    rw [handleClient_echo_empty]
    exact List.mem_singleton.mpr rfl
  exact ⟨hm, c4_response_always_echo [[COMMAND_ECHO, 0, 0, 0, 0]] _ hm⟩

theorem c5_amended_witness :
    (COMMAND_ECHO < 256 ∧ ([0xFF] : List Nat).length < 2 ^ 32 ∧
      utf8Decode [0xFF] = none) ∧
    handleClient [packBI COMMAND_ECHO ([0xFF] : List Nat).length ++ [0xFF] ++ []] =
      ([], Exit.error) :=
  ⟨⟨by decide, by decide, utf8Decode_cons_none (by decide)⟩,
    c5_amended_decode_error_closes COMMAND_ECHO [0xFF] [] (by decide) (by decide)
      (utf8Decode_cons_none (by decide))⟩

theorem c6_amended_witness :
    (99 < 256 ∧ (99 : Nat) ≠ COMMAND_ECHO ∧ (99 : Nat) ≠ COMMAND_REVERSE ∧
      (99 : Nat) ≠ COMMAND_QUIT ∧ ([65] : List Nat).length < 2 ^ 32 ∧
      utf8Decode [65] = some [65] ∧
      ([104] : PyStr).all validScalar = true ∧
      (utf8Encode [104]).length < 2 ^ 32) ∧
    handleClient [packBI 99 ([65] : List Nat).length ++ [65] ++
        sendMessage COMMAND_ECHO [104]] =
      ([sendMessage COMMAND_ECHO [104]], Exit.disconnected) := by
  have hp : utf8Decode [65] = some [65] := by
    rw [utf8Decode_cons_some (show decodeOne 65 [] = some (65, []) by decide),
      utf8Decode_nil]
    rfl
  exact ⟨⟨by decide, by decide, by decide, by decide, by decide, hp, by decide, by decide⟩,
    c6_amended_unknown_inert 99 [65] [65] [104] (by decide) (by decide) (by decide)
      (by decide) (by decide) hp (by decide) (by decide)⟩

theorem c7_quit_silent_witness :
    recvAll [[3, 0, 0, 0, 0]] HEADER_SIZE = (some [3, 0, 0, 0, 0], []) ∧
    (unpackBI [3, 0, 0, 0, 0]).1 = COMMAND_QUIT ∧
    (handleClient [[3, 0, 0, 0, 0]]).1 = [] := by
  have hrecv : recvAll [[3, 0, 0, 0, 0]] HEADER_SIZE = (some [3, 0, 0, 0, 0], []) := by
    have h := recvAll_single (l := [3, 0, 0, 0, 0]) (n := HEADER_SIZE)
      (by decide) (by decide)
    simpa using h
  exact ⟨hrecv, by decide,
    c7_quit_silent [[3, 0, 0, 0, 0]] [3, 0, 0, 0, 0] [] hrecv (by decide)⟩

theorem c9_recvAll_witness :
    1 ≤ 3 ∧ ((recvAll [[1], [2, 3]] 3).1 = none ∨
      ∃ d, (recvAll [[1], [2, 3]] 3).1 = some d ∧ d.length = 3) :=
  ⟨by decide, c9_recvAll_all_or_nothing [[1], [2, 3]] 3 (by decide)⟩

theorem c10_unknown_consumes_whole_frame_witness :
    handleOne [[99, 0, 0, 0, 1, 65]] = Step.ignore [] ∧
    (∃ hd p, streamContent [[99, 0, 0, 0, 1, 65]] = hd ++ p ++ streamContent [] ∧
      hd.length = HEADER_SIZE ∧ p.length = (unpackBI hd).2 ∧
      handleClient [[99, 0, 0, 0, 1, 65]] = handleClient []) := by
  have hp : utf8Decode [65] = some [65] := by
    rw [utf8Decode_cons_some (show decodeOne 65 [] = some (65, []) by decide),
      utf8Decode_nil]
    rfl
  have h : handleOne [[99, 0, 0, 0, 1, 65]] = Step.ignore [] := by
    have h2 := handleOne_frame (c := 99) (p := [65]) (m := []) (by decide)
      (by decide) hp
    rw [dispatch, if_neg (by decide), if_neg (by decide), if_neg (by decide)] at h2
    exact h2
  exact ⟨h, c10_unknown_consumes_whole_frame [[99, 0, 0, 0, 1, 65]] [] h⟩


end CustomTCP
